import Mathlib

/-!
# Verification of the user-management core (`user_functions.py`)

A shallow embedding of the account-management logic: the pure validators
(`is_valid_password`, `is_valid_email`, built on a small regex matcher that
mirrors the two patterns the source compiles), the hasher, and the four
Account Service operations (`register_user`, `activate_user`,
`authenticate_user`, `reset_password`) over an explicit users table.

The SQLite `users` table is modelled as a list of rows in insertion order;
`SELECT ... WHERE email = ?` followed by `fetchone()` is `List.find?` on the
email column, `UPDATE ... WHERE email = ?` rewrites every matching row, and
`INSERT` appends.  Each operation also records whether it opened a storage
connection and whether it closed it before returning, so connection-discipline
properties are statable.
-/

namespace UserMgmt

/-! ## Regex matcher

The source uses `re` with exactly two pattern shapes: single character
classes (searched anywhere, for the password rules) and a concatenation of
classes, literals and at-least-`n` repetitions of a class (matched at the
start, for the email pattern).  `RE` has precisely these constructs:
`cls p` matches one character satisfying `p`, `seq` is concatenation, and
`rep n p` matches `n` or more characters satisfying `p` (so `+` is `rep 1`
and `{2,}` is `rep 2`). -/

inductive RE where
  | cls (p : Char → Bool)
  | seq (a b : RE)
  | rep (n : Nat) (p : Char → Bool)

/-- Match at least `n` characters satisfying `p` at the front of the input,
then hand the remaining input to the continuation `k`; the result is true if
some split succeeds (backtracking disjunction over all splits). -/
def matchRep (p : Char → Bool) : List Char → Nat → (List Char → Bool) → Bool
  | [], 0, k => k []
  | [], _ + 1, _ => false
  | c :: cs, 0, k => k (c :: cs) || (p c && matchRep p cs 0 k)
  | c :: cs, n + 1, k => p c && matchRep p cs n k

/-- Continuation-passing matcher: `matchRE r s k` is true when some prefix of
`s` matches `r` and `k` accepts the corresponding remainder. -/
def matchRE : RE → List Char → (List Char → Bool) → Bool
  | .cls p, s, k =>
    match s with
    | [] => false
    | c :: cs => p c && k cs
  | .seq a b, s, k => matchRE a s fun t => matchRE b t k
  | .rep n p, s, k => matchRep p s n k

/-- `re.match(r, s)`: anchored at the start only — true when some prefix of
`s` matches `r`; anything may follow. -/
def reMatch (r : RE) (s : String) : Bool :=
  matchRE r s.data fun _ => true

/-- Helper for `reSearch`: try an anchored match at every suffix. -/
def searchFrom (r : RE) : List Char → Bool
  | [] => matchRE r [] fun _ => true
  | c :: cs => (matchRE r (c :: cs) fun _ => true) || searchFrom r cs

/-- `re.search(r, s)`: true when `r` matches at some position of `s`. -/
def reSearch (r : RE) (s : String) : Bool :=
  searchFrom r s.data

/-! ## Validator -/

/-- The special-character class of the password rule, as the source writes it:
`[!@#$%^&*(),.?\":{}|<>]`. -/
def specialChars : List Char :=
  ['!', '@', '#', '$', '%', '^', '&', '*', '(', ')', ',', '.', '?', '"',
   ':', '\x7b', '\x7d', '|', '<', '>']

def isSpecialChar (c : Char) : Bool :=
  specialChars.contains c

/-- `is_valid_password`: true iff `re.search` finds a decimal digit and
`re.search` finds a character of the special class. -/
def is_valid_password (password : String) : Bool :=
  reSearch (.cls Char.isDigit) password && reSearch (.cls isSpecialChar) password

/-- The class `[a-zA-Z0-9._%+-]` of the local part of the email pattern. -/
def emailLocalChar (c : Char) : Bool :=
  c.isAlpha || c.isDigit || c == '.' || c == '_' || c == '%' || c == '+' || c == '-'

/-- The class `[a-zA-Z0-9.-]` of the domain part of the email pattern. -/
def emailDomainChar (c : Char) : Bool :=
  c.isAlpha || c.isDigit || c == '.' || c == '-'

/-- The email pattern of the source `[a-zA-Z0-9._%+-]+@[a-zA-Z0-9.-]+\.[a-zA-Z]{2,}`. -/
def emailPattern : RE :=
  .seq (.rep 1 emailLocalChar)
    (.seq (.cls fun c => c == '@')
      (.seq (.rep 1 emailDomainChar)
        (.seq (.cls fun c => c == '.')
          (.rep 2 Char.isAlpha))))

/-- `is_valid_email`: `re.match` of the email pattern (anchored at the start,
no end anchor). -/
def is_valid_email (email : String) : Bool :=
  reMatch emailPattern email

/-! ## Hasher -/

/-- Modelled from the spec: the source delegates to SHA-256 from outside the
repository (`hashlib.sha256(...).hexdigest()`).  The Hasher contract of the spec
is a deterministic transform where the same input always yields the same
output and different inputs yield different outputs; we model it as an
injective tagging transform with those two properties. -/
def hash_password (password : String) : String :=
  "sha256:" ++ password

/-! ## Data model

One row of the `users` table.  `password` stores the hash (the column name of the schema), `activation_date` is a nullable timestamp, and timestamps are
abstract clock readings supplied to each operation. -/

structure UserRow where
  email : String
  password : String
  is_active : Bool
  registration_date : Nat
  activation_date : Option Nat
deriving DecidableEq, Repr

/-- The `users` table, rows in insertion (rowid) order. -/
abbrev Table := List UserRow

/-- `SELECT * FROM users WHERE email = ?` followed by `fetchone()`. -/
def findUser (t : Table) (email : String) : Option UserRow :=
  t.find? fun r => r.email == email

/-- What an Account Service operation returns and leaves behind: the
`(bool, message)` result tuple, the table after the call, and whether the
operation opened a storage connection and closed it before returning. -/
structure OpResult where
  ok : Bool
  msg : String
  table : Table
  connOpened : Bool
  connClosed : Bool
deriving DecidableEq, Repr

/-! ## Account Service -/

/-- `register_user(db_path, email, password)`. -/
def register_user (t : Table) (now : Nat) (email password : String) : OpResult :=
  if !is_valid_email email then
    ⟨false, "Invalid email format", t, false, false⟩
  else if !is_valid_password password then
    ⟨false, "Password should contain at least one digit and one special character.",
      t, false, false⟩
  else
    match findUser t email with
    | some _ => ⟨false, "Email already registered", t, true, true⟩
    | none =>
      ⟨true, "Registration successful",
        t ++ [⟨email, hash_password password, false, now, none⟩], true, true⟩

/-- `activate_user(db_path, email)`. -/
def activate_user (t : Table) (now : Nat) (email : String) : OpResult :=
  match findUser t email with
  | none => ⟨false, "User not found", t, true, true⟩
  | some _ =>
    ⟨true, "User activated",
      t.map fun r =>
        if r.email == email then
          { r with is_active := true, activation_date := some now }
        else r,
      true, true⟩

/-- `authenticate_user(db_path, email, password)`.  Note the success path of
the source returns without reaching `conn.close()`. -/
def authenticate_user (t : Table) (email password : String) : OpResult :=
  match findUser t email with
  | some r =>
    if hash_password password == r.password && r.is_active then
      ⟨true, "Authentication successful", t, true, false⟩
    else
      ⟨false, "Invalid credentials or account not activated", t, true, true⟩
  | none => ⟨false, "Invalid credentials or account not activated", t, true, true⟩

/-- `reset_password(db_path, email, new_password)`. -/
def reset_password (t : Table) (email new_password : String) : OpResult :=
  if !is_valid_password new_password then
    ⟨false, "Password should contain at least one digit and one special character.",
      t, false, false⟩
  else
    match findUser t email with
    | none => ⟨false, "User not found", t, true, true⟩
    | some _ =>
      ⟨true, "Password reset successfully",
        t.map fun r =>
          if r.email == email then { r with password := hash_password new_password }
          else r,
        true, true⟩

/-- The per-row activation invariant: `activation_date` is non-null iff
`is_active` is true. -/
def activeInv (r : UserRow) : Bool :=
  r.activation_date.isSome == r.is_active

/-- States reachable from the empty table by any sequence of the four
Account Service operations, with arbitrary inputs and clock readings. -/
inductive Reachable : Table → Prop where
  | empty : Reachable []
  | register (t : Table) (now : Nat) (e p : String) :
      Reachable t → Reachable (register_user t now e p).table
  | activate (t : Table) (now : Nat) (e : String) :
      Reachable t → Reachable (activate_user t now e).table
  | authenticate (t : Table) (e p : String) :
      Reachable t → Reachable (authenticate_user t e p).table
  | reset (t : Table) (e p : String) :
      Reachable t → Reachable (reset_password t e p).table

/-! ## Matcher correctness lemmas -/

theorem matchRE_seq (a b : RE) (s : List Char) (k : List Char → Bool) :
    matchRE (.seq a b) s k = matchRE a s fun t => matchRE b t k := rfl

theorem matchRE_rep (n : Nat) (p : Char → Bool) (s : List Char) (k : List Char → Bool) :
    matchRE (.rep n p) s k = matchRep p s n k := rfl

/-- A single-character class matches when the input starts with a character of
the class and the continuation accepts the tail. -/
theorem matchRE_cls_iff (p : Char → Bool) (s : List Char) (k : List Char → Bool) :
    matchRE (.cls p) s k = true ↔ ∃ c cs, s = c :: cs ∧ p c = true ∧ k cs = true := by
  cases s with
  | nil =>
    simp only [matchRE]
    constructor
    · intro h; exact absurd h (by decide)
    · rintro ⟨c, cs, h, -, -⟩; cases h
  | cons c cs =>
    simp only [matchRE, Bool.and_eq_true]
    constructor
    · rintro ⟨hp, hk⟩; exact ⟨c, cs, rfl, hp, hk⟩
    · rintro ⟨c', cs', h, hp, hk⟩
      cases h; exact ⟨hp, hk⟩

/-- `matchRep p s n k` succeeds exactly when `s` splits as `u ++ v` with at
least `n` characters of the class `p` in `u` and `k` accepting `v`. -/
theorem matchRep_iff (p : Char → Bool) (s : List Char) (n : Nat) (k : List Char → Bool) :
    matchRep p s n k = true ↔
      ∃ u v, s = u ++ v ∧ n ≤ u.length ∧ (∀ c ∈ u, p c = true) ∧ k v = true := by
  induction s generalizing n k with
  | nil =>
    cases n with
    | zero =>
      simp only [matchRep]
      constructor
      · intro h
        refine ⟨[], [], rfl, Nat.le_refl 0, ?_, h⟩
        intro c hc; cases hc
      · rintro ⟨u, v, huv, -, -, hk⟩
        obtain ⟨hu, hv⟩ := List.append_eq_nil.mp huv.symm
        subst hu; subst hv; exact hk
    | succ m =>
      simp only [matchRep]
      constructor
      · intro h; exact absurd h (by decide)
      · rintro ⟨u, v, huv, hlen, -, -⟩
        obtain ⟨hu, -⟩ := List.append_eq_nil.mp huv.symm
        subst hu; exact absurd hlen (by simp)
  | cons c cs ih =>
    cases n with
    | zero =>
      simp only [matchRep, Bool.or_eq_true, Bool.and_eq_true]
      constructor
      · rintro (h | ⟨hpc, hm⟩)
        · refine ⟨[], c :: cs, rfl, Nat.le_refl 0, ?_, h⟩
          intro x hx; cases hx
        · obtain ⟨u, v, huv, -, hall, hk⟩ := (ih 0 k).mp hm
          refine ⟨c :: u, v, by simp [huv], by simp, ?_, hk⟩
          intro x hx
          rcases List.mem_cons.mp hx with h1 | h2
          · subst h1; exact hpc
          · exact hall x h2
      · rintro ⟨u, v, huv, -, hall, hk⟩
        cases u with
        | nil =>
          left
          simp only [List.nil_append] at huv
          subst huv; exact hk
        | cons a u' =>
          right
          rw [List.cons_append] at huv
          injection huv with h1 h2
          subst h1
          refine ⟨hall _ (List.mem_cons_self _ u'), (ih 0 k).mpr ?_⟩
          refine ⟨u', v, h2, Nat.zero_le _, ?_, hk⟩
          intro x hx; exact hall x (List.mem_cons_of_mem _ hx)
    | succ m =>
      simp only [matchRep, Bool.and_eq_true]
      constructor
      · rintro ⟨hpc, hm⟩
        obtain ⟨u, v, huv, hlen, hall, hk⟩ := (ih m k).mp hm
        refine ⟨c :: u, v, by simp [huv], by simpa using Nat.succ_le_succ hlen, ?_, hk⟩
        intro x hx
        rcases List.mem_cons.mp hx with h1 | h2
        · subst h1; exact hpc
        · exact hall x h2
      · rintro ⟨u, v, huv, hlen, hall, hk⟩
        cases u with
        | nil => exact absurd hlen (by simp)
        | cons a u' =>
          rw [List.cons_append] at huv
          injection huv with h1 h2
          subst h1
          refine ⟨hall _ (List.mem_cons_self _ u'), (ih m k).mpr ?_⟩
          refine ⟨u', v, h2, Nat.le_of_succ_le_succ hlen, ?_, hk⟩
          intro x hx; exact hall x (List.mem_cons_of_mem _ hx)

/-- Searching for a single-character class finds it exactly when some
character of the input is in the class. -/
theorem searchFrom_cls_iff (p : Char → Bool) (l : List Char) :
    searchFrom (.cls p) l = true ↔ ∃ c ∈ l, p c = true := by
  induction l with
  | nil =>
    simp only [searchFrom, matchRE]
    constructor
    · intro h; exact absurd h (by decide)
    · rintro ⟨c, hc, -⟩; cases hc
  | cons c cs ih =>
    simp only [searchFrom, matchRE, Bool.or_eq_true, Bool.and_eq_true, ih]
    constructor
    · rintro (⟨hp, -⟩ | ⟨x, hx, hp⟩)
      · exact ⟨c, List.mem_cons_self c cs, hp⟩
      · exact ⟨x, List.mem_cons_of_mem c hx, hp⟩
    · rintro ⟨x, hx, hp⟩
      rcases List.mem_cons.mp hx with h1 | h2
      · subst h1; exact Or.inl ⟨hp, trivial⟩
      · exact Or.inr ⟨x, h2, hp⟩

/-! ## Hasher and table lemmas -/

/-- The modelled hasher is injective (per the spec, different inputs yield
different outputs). -/
theorem hash_password_injective {p q : String} (h : hash_password p = hash_password q) :
    p = q := by
  have h2 : ("sha256:" ++ p).data = ("sha256:" ++ q).data := congrArg String.data h
  rw [String.data_append, String.data_append] at h2
  exact String.ext (List.append_cancel_left h2)

/-- Appending a fresh row to a table where the email is absent makes the
lookup find exactly that row. -/
theorem findUser_append_fresh (t : Table) (e : String) (r : UserRow)
    (h : findUser t e = none) (hr : (r.email == e) = true) :
    findUser (t ++ [r]) e = some r := by
  unfold findUser at *
  rw [List.find?_append, h]
  simp [List.find?, hr]

/-- Lookup commutes with an email-preserving row transformation. -/
theorem findUser_map (f : UserRow → UserRow) (hf : ∀ r, (f r).email = r.email)
    (t : Table) (e : String) :
    findUser (t.map f) e = (findUser t e).map f := by
  induction t with
  | nil => rfl
  | cons a t ih =>
    unfold findUser at *
    simp only [List.map_cons, List.find?_cons, hf a]
    cases ha : a.email == e
    · simpa using ih
    · rfl

/-! ## Claim theorems -/

/-- C5: `is_valid_password(p)` is true iff `p` contains at least one decimal
digit and at least one character from the special set
`! @ # $ % ^ & * ( ) , . ? " : \x7b \x7d | < >`; in particular the empty
string is invalid and there is no length, uppercase, or lowercase
requirement. -/
theorem is_valid_password_iff (p : String) :
    is_valid_password p = true ↔
      (∃ c ∈ p.data, c.isDigit = true) ∧ (∃ c ∈ p.data, isSpecialChar c = true) := by
  unfold is_valid_password reSearch
  rw [Bool.and_eq_true, searchFrom_cls_iff, searchFrom_cls_iff]

/-- C6: `is_valid_email(s)` is true iff some prefix of `s` (anchored at the
start, with no end anchor) decomposes as one-or-more characters from
`[a-zA-Z0-9._%+-]`, then `@`, then one-or-more characters from
`[a-zA-Z0-9.-]`, then a literal `.`, then two-or-more letters — any trailing
garbage after such a prefix is accepted, and the empty string is rejected. -/
theorem is_valid_email_iff (s : String) :
    is_valid_email s = true ↔
      ∃ u v w rest : List Char,
        s.data = u ++ '@' :: (v ++ '.' :: (w ++ rest)) ∧
        u ≠ [] ∧ (∀ c ∈ u, emailLocalChar c = true) ∧
        v ≠ [] ∧ (∀ c ∈ v, emailDomainChar c = true) ∧
        2 ≤ w.length ∧ (∀ c ∈ w, c.isAlpha = true) := by
  unfold is_valid_email reMatch emailPattern
  simp only [matchRE_seq, matchRE_rep]
  rw [matchRep_iff]
  constructor
  · rintro ⟨u, t1, hs, hu, hallu, hk1⟩
    obtain ⟨c1, t2, ht1, hc1, hk2⟩ := (matchRE_cls_iff _ _ _).mp hk1
    obtain ⟨v, t3, ht2, hv, hallv, hk3⟩ := (matchRep_iff _ _ _ _).mp hk2
    obtain ⟨c2, t4, ht3, hc2, hk4⟩ := (matchRE_cls_iff _ _ _).mp hk3
    obtain ⟨w, rest, ht4, hw, hallw, -⟩ := (matchRep_iff _ _ _ _).mp hk4
    have hc1' : c1 = '@' := by simpa using hc1
    have hc2' : c2 = '.' := by simpa using hc2
    subst hc1'; subst hc2'; subst ht4; subst ht3; subst ht2; subst ht1
    refine ⟨u, v, w, rest, by simpa using hs, List.ne_nil_of_length_pos hu, hallu,
      List.ne_nil_of_length_pos hv, hallv, hw, hallw⟩
  · rintro ⟨u, v, w, rest, hs, hu, hallu, hv, hallv, hw, hallw⟩
    refine ⟨u, '@' :: (v ++ '.' :: (w ++ rest)), hs,
      List.length_pos.mpr hu, hallu, ?_⟩
    refine (matchRE_cls_iff _ _ _).mpr ⟨'@', v ++ '.' :: (w ++ rest), rfl, rfl, ?_⟩
    refine (matchRep_iff _ _ _ _).mpr
      ⟨v, '.' :: (w ++ rest), rfl, List.length_pos.mpr hv, hallv, ?_⟩
    refine (matchRE_cls_iff _ _ _).mpr ⟨'.', w ++ rest, rfl, rfl, ?_⟩
    exact (matchRep_iff _ _ _ _).mpr ⟨w, rest, rfl, hw, hallw, rfl⟩

/-- Case analysis of `register_user`: which check fires first and what the
success path inserts. -/
theorem register_user_cases (t : Table) (now : Nat) (e p : String) :
    (is_valid_email e = false →
      (register_user t now e p).ok = false ∧
      (register_user t now e p).msg = "Invalid email format") ∧
    (is_valid_email e = true → is_valid_password p = false →
      (register_user t now e p).ok = false ∧
      (register_user t now e p).msg =
        "Password should contain at least one digit and one special character.") ∧
    (is_valid_email e = true → is_valid_password p = true →
      (∃ r, findUser t e = some r) →
      (register_user t now e p).ok = false ∧
      (register_user t now e p).msg = "Email already registered") ∧
    (is_valid_email e = true → is_valid_password p = true → findUser t e = none →
      (register_user t now e p).ok = true ∧
      (register_user t now e p).msg = "Registration successful" ∧
      (register_user t now e p).table =
        t ++ [⟨e, hash_password p, false, now, none⟩]) := by
  refine ⟨?_, ?_, ?_, ?_⟩
  · intro h1; simp [register_user, h1]
  · intro h1 h2; simp [register_user, h1, h2]
  · rintro h1 h2 ⟨r, hr⟩; simp [register_user, h1, h2, hr]
  · intro h1 h2 h3; simp [register_user, h1, h2, h3]

/-- C1: `register_user` performs its checks in the fixed order email-format,
then password-complexity, then uniqueness, with the corresponding messages;
when all pass it appends a record with the hashed password, `is_active`
false and `activation_date` null, and reports "Registration successful". -/
theorem register_user_spec (t : Table) (now : Nat) (e p : String) :
    (is_valid_email e = false →
      (register_user t now e p).ok = false ∧
      (register_user t now e p).msg = "Invalid email format") ∧
    (is_valid_email e = true → is_valid_password p = false →
      (register_user t now e p).ok = false ∧
      (register_user t now e p).msg =
        "Password should contain at least one digit and one special character.") ∧
    (is_valid_email e = true → is_valid_password p = true →
      (∃ r, findUser t e = some r) →
      (register_user t now e p).ok = false ∧
      (register_user t now e p).msg = "Email already registered") ∧
    (is_valid_email e = true → is_valid_password p = true → findUser t e = none →
      (register_user t now e p).ok = true ∧
      (register_user t now e p).msg = "Registration successful" ∧
      (register_user t now e p).table =
        t ++ [⟨e, hash_password p, false, now, none⟩]) :=
  register_user_cases t now e p

theorem register_user_spec_witness :
    ((register_user [] 0 "bad" "x1!").msg = "Invalid email format") ∧
    ((register_user [] 0 "a@bc.de" "xx").msg =
      "Password should contain at least one digit and one special character.") ∧
    ((register_user [⟨"a@bc.de", "h", false, 0, none⟩] 0 "a@bc.de" "x1!").msg =
      "Email already registered") ∧
    ((register_user [] 0 "a@bc.de" "x1!").ok = true) :=
  ⟨((register_user_spec [] 0 "bad" "x1!").1 (by decide)).2,
   ((register_user_spec [] 0 "a@bc.de" "xx").2.1 (by decide) (by decide)).2,
   ((register_user_spec [⟨"a@bc.de", "h", false, 0, none⟩] 0 "a@bc.de" "x1!").2.2.1
     (by decide) (by decide) ⟨⟨"a@bc.de", "h", false, 0, none⟩, by decide⟩).2,
   ((register_user_spec [] 0 "a@bc.de" "x1!").2.2.2 (by decide) (by decide)
     (by decide)).1⟩

/-- Case analysis of `authenticate_user`: uniform failure exactly on a
missing record, a hash mismatch or an inactive account; success otherwise. -/
theorem authenticate_user_cases (t : Table) (e p : String) :
    (((authenticate_user t e p).ok = false ∧
      (authenticate_user t e p).msg = "Invalid credentials or account not activated") ↔
      (findUser t e = none ∨
        ∃ r, findUser t e = some r ∧
          (r.password ≠ hash_password p ∨ r.is_active = false))) ∧
    (¬(findUser t e = none ∨
        ∃ r, findUser t e = some r ∧
          (r.password ≠ hash_password p ∨ r.is_active = false)) →
      (authenticate_user t e p).ok = true ∧
      (authenticate_user t e p).msg = "Authentication successful") := by
  cases hf : findUser t e with
  | none =>
    constructor
    · simp [authenticate_user, hf]
    · intro hn; exact absurd (Or.inl rfl) hn
  | some r =>
    cases hb : (hash_password p == r.password && r.is_active) with
    | true =>
      have hres : authenticate_user t e p =
          ⟨true, "Authentication successful", t, true, false⟩ := by
        simp [authenticate_user, hf, hb]
      rw [Bool.and_eq_true, beq_iff_eq] at hb
      obtain ⟨hpw, hact⟩ := hb
      constructor
      · rw [hres]
        constructor
        · rintro ⟨h, -⟩; cases h
        · rintro (h | ⟨r', hr', hbad⟩)
          · cases h
          · cases Option.some.inj hr'
            rcases hbad with h | h
            · exact absurd hpw.symm h
            · rw [hact] at h; cases h
      · intro _; rw [hres]; exact ⟨rfl, rfl⟩
    | false =>
      have hres : authenticate_user t e p =
          ⟨false, "Invalid credentials or account not activated", t, true, true⟩ := by
        simp [authenticate_user, hf, hb]
      have hcond : r.password ≠ hash_password p ∨ r.is_active = false := by
        by_cases hpw : hash_password p = r.password
        · right
          have hbeq : (hash_password p == r.password) = true := beq_iff_eq.mpr hpw
          simpa [hbeq] using hb
        · left; exact fun h => hpw h.symm
      constructor
      · rw [hres]
        exact ⟨fun _ => Or.inr ⟨r, rfl, hcond⟩, fun _ => ⟨rfl, rfl⟩⟩
      · intro hn; exact absurd (Or.inr ⟨r, rfl, hcond⟩) hn

/-- C2: `authenticate_user` returns the uniform failure message exactly when
no record matches the email, or the stored hash differs from the hash of the
supplied password, or the account is inactive; otherwise it succeeds with
"Authentication successful". -/
theorem authenticate_user_spec (t : Table) (e p : String) :
    (((authenticate_user t e p).ok = false ∧
      (authenticate_user t e p).msg = "Invalid credentials or account not activated") ↔
      (findUser t e = none ∨
        ∃ r, findUser t e = some r ∧
          (r.password ≠ hash_password p ∨ r.is_active = false))) ∧
    (¬(findUser t e = none ∨
        ∃ r, findUser t e = some r ∧
          (r.password ≠ hash_password p ∨ r.is_active = false)) →
      (authenticate_user t e p).ok = true ∧
      (authenticate_user t e p).msg = "Authentication successful") :=
  authenticate_user_cases t e p

theorem authenticate_user_spec_witness :
    ((authenticate_user [] "a@bc.de" "x1!").ok = false ∧
      (authenticate_user [] "a@bc.de" "x1!").msg =
        "Invalid credentials or account not activated") ∧
    ((authenticate_user [⟨"a@bc.de", hash_password "x1!", true, 0, some 1⟩]
        "a@bc.de" "x1!").ok = true ∧
      (authenticate_user [⟨"a@bc.de", hash_password "x1!", true, 0, some 1⟩]
        "a@bc.de" "x1!").msg = "Authentication successful") :=
  ⟨(authenticate_user_spec [] "a@bc.de" "x1!").1.mpr (Or.inl (by decide)),
   (authenticate_user_spec [⟨"a@bc.de", hash_password "x1!", true, 0, some 1⟩]
      "a@bc.de" "x1!").2 (by
        rintro (h | ⟨r, hr, hbad⟩)
        · exact absurd h (by decide)
        · cases Option.some.inj hr
          rcases hbad with h | h
          · exact h rfl
          · exact absurd h (by decide))⟩

/-- Case analysis of `reset_password`: complexity check first, then
existence, then the update of the stored hash. -/
theorem reset_password_cases (t : Table) (e np : String) :
    (is_valid_password np = false →
      (reset_password t e np).ok = false ∧
      (reset_password t e np).msg =
        "Password should contain at least one digit and one special character.") ∧
    (is_valid_password np = true → findUser t e = none →
      (reset_password t e np).ok = false ∧
      (reset_password t e np).msg = "User not found") ∧
    (is_valid_password np = true → ∀ r, findUser t e = some r →
      (reset_password t e np).ok = true ∧
      (reset_password t e np).msg = "Password reset successfully" ∧
      (reset_password t e np).table =
        t.map fun r' =>
          if r'.email == e then { r' with password := hash_password np } else r') := by
  refine ⟨?_, ?_, ?_⟩
  · intro h1; simp [reset_password, h1]
  · intro h1 h2; simp [reset_password, h1, h2]
  · intro h1 r hr; simp [reset_password, h1, hr]

/-- C3: `reset_password` checks password complexity before existence: an
invalid new password is rejected with the complexity message for every email,
then a missing user yields "User not found", and otherwise the stored hash of
every row with that email becomes the hash of the new password and the call
reports "Password reset successfully". -/
theorem reset_password_spec (t : Table) (e np : String) :
    (is_valid_password np = false →
      (reset_password t e np).ok = false ∧
      (reset_password t e np).msg =
        "Password should contain at least one digit and one special character.") ∧
    (is_valid_password np = true → findUser t e = none →
      (reset_password t e np).ok = false ∧
      (reset_password t e np).msg = "User not found") ∧
    (is_valid_password np = true → ∀ r, findUser t e = some r →
      (reset_password t e np).ok = true ∧
      (reset_password t e np).msg = "Password reset successfully" ∧
      (reset_password t e np).table =
        t.map fun r' =>
          if r'.email == e then { r' with password := hash_password np } else r') :=
  reset_password_cases t e np

theorem reset_password_spec_witness :
    ((reset_password [] "ghost@bc.de" "xx").msg =
      "Password should contain at least one digit and one special character.") ∧
    ((reset_password [] "ghost@bc.de" "x1!").msg = "User not found") ∧
    ((reset_password [⟨"a@bc.de", "h", false, 0, none⟩] "a@bc.de" "x1!").ok = true) :=
  ⟨((reset_password_spec [] "ghost@bc.de" "xx").1 (by decide)).2,
   ((reset_password_spec [] "ghost@bc.de" "x1!").2.1 (by decide) (by decide)).2,
   ((reset_password_spec [⟨"a@bc.de", "h", false, 0, none⟩] "a@bc.de" "x1!").2.2
     (by decide) ⟨"a@bc.de", "h", false, 0, none⟩ (by decide)).1⟩

/-- C4: in every state reachable from the empty table by any sequence of the
four operations, every row satisfies `activation_date` is non-null iff
`is_active` is true: registration creates rows with both unset, activation
sets both together, and no operation changes one without the other. -/
theorem reachable_activation_invariant (t : Table) (h : Reachable t) :
    t.all activeInv = true := by
  induction h with
  | empty => rfl
  | register t now e p _ ih =>
    unfold register_user
    cases h1 : is_valid_email e with
    | false => simpa using ih
    | true =>
      cases h2 : is_valid_password p with
      | false => simpa using ih
      | true =>
        cases h3 : findUser t e with
        | some r => simpa using ih
        | none =>
          simp only [Bool.not_true, Bool.false_eq_true, if_false]
          rw [List.all_append]
          simp [ih, activeInv]
  | activate t now e _ ih =>
    unfold activate_user
    cases h1 : findUser t e with
    | none => simpa using ih
    | some r =>
      simp only [List.all_map]
      rw [List.all_eq_true] at ih ⊢
      intro r' hr'
      by_cases hm : (r'.email == e) = true
      · simp [Function.comp, hm, activeInv]
      · simp only [Function.comp]
        rw [if_neg (by simpa using hm)]
        exact ih r' hr'
  | authenticate t e p _ ih =>
    have htab : (authenticate_user t e p).table = t := by
      cases hf : findUser t e with
      | none => simp [authenticate_user, hf]
      | some r =>
        cases hb : (hash_password p == r.password && r.is_active) with
        | true => simp [authenticate_user, hf, hb]
        | false => simp [authenticate_user, hf, hb]
    rw [htab]; exact ih
  | reset t e p _ ih =>
    unfold reset_password
    cases h1 : is_valid_password p with
    | false => simpa using ih
    | true =>
      cases h2 : findUser t e with
      | none => simpa using ih
      | some r =>
        simp only [Bool.not_true, Bool.false_eq_true, if_false, List.all_map]
        rw [List.all_eq_true] at ih ⊢
        intro r' hr'
        by_cases hm : (r'.email == e) = true
        · have := ih r' hr'
          simpa [Function.comp, hm, activeInv] using this
        · simp only [Function.comp]
          rw [if_neg (by simpa using hm)]
          exact ih r' hr'

theorem reachable_activation_invariant_witness :
    ((activate_user (register_user [] 0 "a@bc.de" "x1!").table 1 "a@bc.de").table.all
      activeInv) = true :=
  reachable_activation_invariant _
    (Reachable.activate _ 1 "a@bc.de" (Reachable.register [] 0 "a@bc.de" "x1!"
      Reachable.empty))

/-- C9 divergence, evaluated: on a successful authentication the source
returns without reaching `conn.close()`, so the storage connection it opened
is still open; the docstring of the operation promises the connection is
closed before returning. -/
theorem authenticate_success_leaves_connection_open :
    (authenticate_user [⟨"a@bc.de", hash_password "x1!", true, 0, some 1⟩]
        "a@bc.de" "x1!").ok = true ∧
    (authenticate_user [⟨"a@bc.de", hash_password "x1!", true, 0, some 1⟩]
        "a@bc.de" "x1!").connOpened = true ∧
    (authenticate_user [⟨"a@bc.de", hash_password "x1!", true, 0, some 1⟩]
        "a@bc.de" "x1!").connClosed = false := by
  refine ⟨rfl, rfl, rfl⟩

/-- C10: failure is atomic — whenever any of the four operations returns a
false flag, the users table after the call is identical to the table before
the call. -/
theorem failure_atomic (t : Table) (now : Nat) (e p : String) :
    ((register_user t now e p).ok = false → (register_user t now e p).table = t) ∧
    ((activate_user t now e).ok = false → (activate_user t now e).table = t) ∧
    ((authenticate_user t e p).ok = false → (authenticate_user t e p).table = t) ∧
    ((reset_password t e p).ok = false → (reset_password t e p).table = t) := by
  refine ⟨?_, ?_, ?_, ?_⟩
  · intro h
    unfold register_user at *
    cases h1 : is_valid_email e with
    | false => simp [h1]
    | true =>
      cases h2 : is_valid_password p with
      | false => simp [h1, h2]
      | true =>
        cases h3 : findUser t e with
        | some r => simp [h1, h2, h3]
        | none => rw [h1, h2, h3] at h; exact absurd h (by simp)
  · intro h
    unfold activate_user at *
    cases h1 : findUser t e with
    | none => simp [h1]
    | some r => rw [h1] at h; exact absurd h (by simp)
  · intro _
    unfold authenticate_user
    cases h1 : findUser t e with
    | none => rfl
    | some r =>
      cases hb : (hash_password p == r.password && r.is_active) with
      | true => simp [hb]
      | false => simp [hb]
  · intro h
    unfold reset_password at *
    cases h1 : is_valid_password p with
    | false => simp [h1]
    | true =>
      cases h2 : findUser t e with
      | none => simp [h1, h2]
      | some r => rw [h1, h2] at h; exact absurd h (by simp)

theorem failure_atomic_witness :
    ((register_user [] 0 "bad" "x1!").table = []) ∧
    ((activate_user [] 0 "bad").table = []) ∧
    ((authenticate_user [] "bad" "x1!").table = []) ∧
    ((reset_password [] "bad" "x1!").table = []) :=
  ⟨(failure_atomic [] 0 "bad" "x1!").1 (by decide),
   (failure_atomic [] 0 "bad" "x1!").2.1 (by decide),
   (failure_atomic [] 0 "bad" "x1!").2.2.1 (by decide),
   (failure_atomic [] 0 "bad" "x1!").2.2.2 (by decide)⟩

/-- C7 as stated is false: because password complexity is checked before
uniqueness, a second registration of an already-registered email with an
invalid password reports the password-complexity message, not "Email already
registered".  Concretely with the empty table, the valid email `a@bc.de`, the
valid first password `x1!` and the invalid second password `xx`. -/
theorem second_register_not_always_duplicate :
    is_valid_email "a@bc.de" = true ∧
    is_valid_password "x1!" = true ∧
    findUser [] "a@bc.de" = none ∧
    (register_user [] 0 "a@bc.de" "x1!").ok = true ∧
    (register_user [] 0 "a@bc.de" "x1!").msg = "Registration successful" ∧
    (register_user (register_user [] 0 "a@bc.de" "x1!").table 1 "a@bc.de" "xx").ok
      = false ∧
    (register_user (register_user [] 0 "a@bc.de" "x1!").table 1 "a@bc.de" "xx").msg
      = "Password should contain at least one digit and one special character." ∧
    (register_user (register_user [] 0 "a@bc.de" "x1!").table 1 "a@bc.de" "xx").msg
      ≠ "Email already registered" := by
  refine ⟨rfl, rfl, rfl, rfl, rfl, rfl, rfl, ?_⟩
  intro h
  exact absurd h (by decide)

/-- C7 amended: for every valid email `e`, valid password `p1` and valid
password `p2`, starting from a state where `e` is unregistered, the first
`register_user` succeeds with "Registration successful" and an immediately
following `register_user` with `p2` fails with "Email already registered". -/
theorem register_twice_spec (t : Table) (now1 now2 : Nat) (e p1 p2 : String)
    (he : is_valid_email e = true) (hp1 : is_valid_password p1 = true)
    (hp2 : is_valid_password p2 = true) (hfree : findUser t e = none) :
    (register_user t now1 e p1).ok = true ∧
    (register_user t now1 e p1).msg = "Registration successful" ∧
    (register_user (register_user t now1 e p1).table now2 e p2).ok = false ∧
    (register_user (register_user t now1 e p1).table now2 e p2).msg =
      "Email already registered" := by
  obtain ⟨hok, hmsg, htab⟩ :=
    (register_user_cases t now1 e p1).2.2.2 he hp1 hfree
  refine ⟨hok, hmsg, ?_⟩
  have hfind : findUser (register_user t now1 e p1).table e =
      some ⟨e, hash_password p1, false, now1, none⟩ := by
    rw [htab]
    exact findUser_append_fresh t e _ hfree (by simp)
  exact (register_user_cases (register_user t now1 e p1).table now2 e p2).2.2.1
    he hp2 ⟨_, hfind⟩

theorem register_twice_spec_witness :
    (register_user [] 0 "a@bc.de" "x1!").ok = true ∧
    (register_user [] 0 "a@bc.de" "x1!").msg = "Registration successful" ∧
    (register_user (register_user [] 0 "a@bc.de" "x1!").table 1 "a@bc.de" "y2@").ok
      = false ∧
    (register_user (register_user [] 0 "a@bc.de" "x1!").table 1 "a@bc.de" "y2@").msg
      = "Email already registered" :=
  register_twice_spec [] 0 1 "a@bc.de" "x1!" "y2@" (by decide) (by decide)
    (by decide) (by decide)

/-- C8 as stated is false: authentication requires `is_active`, so after a
successful `reset_password` on a registered but never-activated account,
authenticating with the new password still fails.  Concretely: register
`a@bc.de` with `x1!`, reset to `y2@` (distinct from `x1!`, reset succeeds),
then `authenticate_user` with `y2@` returns a false flag. -/
theorem authenticate_after_reset_can_fail :
    (register_user [] 0 "a@bc.de" "x1!").ok = true ∧
    (reset_password (register_user [] 0 "a@bc.de" "x1!").table "a@bc.de" "y2@").ok
      = true ∧
    (authenticate_user
      (reset_password (register_user [] 0 "a@bc.de" "x1!").table "a@bc.de" "y2@").table
      "a@bc.de" "y2@").ok = false := by
  refine ⟨rfl, rfl, rfl⟩

/-- C8 amended: for every registered and activated email (its record has
`is_active` true) and passwords `old_pw ≠ new_pw`, whenever `reset_password`
with `new_pw` returns true, a subsequent `authenticate_user` with `old_pw`
returns false and a subsequent `authenticate_user` with `new_pw` returns
true. -/
theorem reset_password_rotates_credentials (t : Table) (e oldp newp : String)
    (r : UserRow) (hr : findUser t e = some r) (hact : r.is_active = true)
    (hne : oldp ≠ newp)
    (hok : (reset_password t e newp).ok = true) :
    (authenticate_user (reset_password t e newp).table e oldp).ok = false ∧
    (authenticate_user (reset_password t e newp).table e newp).ok = true ∧
    (authenticate_user (reset_password t e newp).table e newp).msg =
      "Authentication successful" := by
  have hnp : is_valid_password newp = true := by
    cases hv : is_valid_password newp with
    | true => rfl
    | false =>
      have := ((reset_password_cases t e newp).1 hv).1
      rw [this] at hok; cases hok
  obtain ⟨-, -, htab⟩ := (reset_password_cases t e newp).2.2 hnp r hr
  have hre : r.email = e := by
    have h2 := hr
    unfold findUser at h2
    have h3 := @List.find?_some UserRow (fun r' => r'.email == e) r t h2
    simpa using h3
  have hfind : findUser (reset_password t e newp).table e =
      some { r with password := hash_password newp } := by
    rw [htab, findUser_map _ (by intro r'; split <;> rfl) t e, hr]
    simp [hre]
  have hhash : hash_password oldp ≠ hash_password newp :=
    fun h => hne (hash_password_injective h)
  refine ⟨?_, ?_, ?_⟩
  · have hcond : ({ r with password := hash_password newp } : UserRow).password
        ≠ hash_password oldp := fun h => hhash h.symm
    exact ((authenticate_user_cases (reset_password t e newp).table e oldp).1.mpr
      (Or.inr ⟨_, hfind, Or.inl hcond⟩)).1
  · refine ((authenticate_user_cases (reset_password t e newp).table e newp).2 ?_).1
    rintro (h | ⟨r', hr', hbad⟩)
    · rw [hfind] at h; cases h
    · rw [hfind] at hr'
      cases Option.some.inj hr'
      rcases hbad with h | h
      · exact h rfl
      · rw [show ({ r with password := hash_password newp } : UserRow).is_active
            = r.is_active from rfl, hact] at h
        cases h
  · refine ((authenticate_user_cases (reset_password t e newp).table e newp).2 ?_).2
    rintro (h | ⟨r', hr', hbad⟩)
    · rw [hfind] at h; cases h
    · rw [hfind] at hr'
      cases Option.some.inj hr'
      rcases hbad with h | h
      · exact h rfl
      · rw [show ({ r with password := hash_password newp } : UserRow).is_active
            = r.is_active from rfl, hact] at h
        cases h

theorem reset_password_rotates_credentials_witness :
    (authenticate_user
      (reset_password [⟨"a@bc.de", hash_password "x1!", true, 0, some 1⟩]
        "a@bc.de" "y2@").table "a@bc.de" "x1!").ok = false ∧
    (authenticate_user
      (reset_password [⟨"a@bc.de", hash_password "x1!", true, 0, some 1⟩]
        "a@bc.de" "y2@").table "a@bc.de" "y2@").ok = true ∧
    (authenticate_user
      (reset_password [⟨"a@bc.de", hash_password "x1!", true, 0, some 1⟩]
        "a@bc.de" "y2@").table "a@bc.de" "y2@").msg = "Authentication successful" :=
  reset_password_rotates_credentials
    [⟨"a@bc.de", hash_password "x1!", true, 0, some 1⟩] "a@bc.de" "x1!" "y2@"
    ⟨"a@bc.de", hash_password "x1!", true, 0, some 1⟩ (by decide) rfl
    (by decide) (by decide)

end UserMgmt
